import Mathlib

/-
Verification of the elevator scheduling/queueing core of Elevator-Emulator.c.

The embedding models the core state machine of `start_elevator_emulator`:
one iteration of the infinite `while(true)` loop is the function `tick`.
Peripheral I/O (LED matrix drawing, seven-segment output, terminal printing,
buzzer tone generation) has no effect on the core state and is omitted; the
acknowledgment tone of `handle_inputs` is modelled as a boolean output.

Machine-integer conventions:
- `current_position`, `destination` and the queue entries hold `ElevatorFloor`
  values (C `int` enum, fine units 0/4/8/12); in every state the machine
  constructs they are non-negative, so they are modelled as `Nat`
  (the decrement `current_position--` only fires when `destination <
  current_position`, hence `current_position ≥ 1`, so truncated subtraction
  agrees with the C `int` decrement).
- `floors_with_traveller` / `floors_without_traveller` are `uint8_t`:
  increments are taken mod 256.
- `queue_start` / `queue_end` / `queue_num` are `uint8_t`; the code keeps
  them below 10 by `% MAX_TRAVELLERS` arithmetic. The decrement `queue_num--`
  only fires in the arrival branch, where the ring-buffer invariant proved
  below gives `1 ≤ queue_num`, so truncated subtraction agrees with C.
- Timestamps come from a monotonic millisecond counter; they are modelled as
  unbounded `Nat`, so `now - earlier` (with `earlier ≤ now`) agrees with the
  wrapping `uint32_t` subtraction of the C code for all differences < 2^32.
-/

namespace Elevator

/-- The queue capacity MAX_TRAVELLERS (10) from the source. -/
def MAX_TRAVELLERS : Nat := 10

/-- Total ring-buffer index: array accesses `queue_origin[k]` use indices the
code keeps in `0..9` via `% MAX_TRAVELLERS`; the accessor totalises with the
same modulus. -/
def idx (n : Nat) : Fin MAX_TRAVELLERS := ⟨n % MAX_TRAVELLERS, Nat.mod_lt n (by decide)⟩

/-- The global variables of Elevator-Emulator.c that the elevator core reads
or writes.  Display-only globals (`previous_position`, `previous_direction`,
`show_ssd_left`, `time_since_ssd_toggle`, the legacy `traveller_active` /
`traveller_floor` / `potential_destination` / `traveller_destination`) are
omitted: no live code path lets them influence the core state.
`traveller_moving` is kept because `update_floor_num` reads it. -/
structure EmuState where
  current_position : Nat
  destination : Nat
  queue_origin : Fin MAX_TRAVELLERS → Nat
  queue_destination : Fin MAX_TRAVELLERS → Nat
  current_origin : Nat
  current_destination : Nat
  queue_start : Nat
  queue_end : Nat
  queue_num : Nat
  queue_move : Bool
  queue_stage : Nat
  traveller_moving : Bool
  floors_with_traveller : Nat
  floors_without_traveller : Nat
  previous_floor : Nat
  door_active : Bool
  door_start_time : Nat
  time_since_move : Nat

/-- External inputs consumed during one loop iteration: the value of the
monotonic clock `get_current_time()`, the speed-switch reading `get_speed()`,
and the resolved button/serial request together with the destination-switch
reading (`none` when no button or key was pressed this tick). -/
structure TickInput where
  now : Nat
  speed : Nat
  inp : Option (Fin 4 × Fin 4)

/-- The door phase determined by the elapsed-time thresholds of
`update_door_animation` (400 / 800 / 1200 ms). -/
inductive DoorPhase where
  | opening
  | fullyOpen
  | closing
  | closed
deriving DecidableEq

/-- The branch selector of `update_door_animation` as a pure function of the
elapsed time `get_current_time() - door_start_time`. -/
def doorPhase (elapsed : Nat) : DoorPhase :=
  if elapsed < 400 then DoorPhase.opening
  else if elapsed < 800 then DoorPhase.fullyOpen
  else if elapsed < 1200 then DoorPhase.closing
  else DoorPhase.closed

/-- The function `update_door_animation`: returns immediately when the door is inactive;
otherwise the first three elapsed-time branches only drive the LEDs (no core
state change) and the final branch (≥ 1200 ms) clears `door_active`. -/
def update_door_animation (now : Nat) (s : EmuState) : EmuState :=
  if s.door_active = false then s
  else if now - s.door_start_time < 400 then s
  else if now - s.door_start_time < 800 then s
  else if now - s.door_start_time < 1200 then s
  else { s with door_active := false }

/-- The function `create_door_animation`: sets `door_active` and records the start time
(the LED writes are display-only). -/
def create_door_animation (now : Nat) (s : EmuState) : EmuState :=
  { s with door_active := true, door_start_time := now }

/-- The function `update_floor_num`: compares the floor index `current_position / 4` with
`previous_floor` and, on a change, increments the counter selected by
`traveller_moving` (uint8_t increments, mod 256). -/
def update_floor_num (s : EmuState) : EmuState :=
  if s.current_position / 4 ≠ s.previous_floor then
    if s.traveller_moving = true then
      { s with floors_with_traveller := (s.floors_with_traveller + 1) % 256,
               previous_floor := s.current_position / 4 }
    else
      { s with floors_without_traveller := (s.floors_without_traveller + 1) % 256,
               previous_floor := s.current_position / 4 }
  else s

/-- The function `handle_inputs`: with a resolved request `(pressed, sw)` the code forms
`potential_floor = FLOOR_pressed = pressed*4` and
`destination_floor = switch_destination() = sw`, rejects the request when
`potential_floor == destination_floor * 4`, and otherwise appends to the ring
buffer when `queue_num < MAX_TRAVELLERS`, playing the acknowledgment tone
`play_tone(3000, 50)` (the returned boolean).  With no button/serial input the
function returns without touching the state. -/
def handle_inputs (inp : Option (Fin 4 × Fin 4)) (s : EmuState) : EmuState × Bool :=
  match inp with
  | none => (s, false)
  | some r =>
    if (r.1 : Nat) * 4 = (r.2 : Nat) * 4 then (s, false)
    else if s.queue_num < MAX_TRAVELLERS then
      ({ s with
          queue_origin := Function.update s.queue_origin (idx s.queue_end) ((r.1 : Nat) * 4),
          queue_destination :=
            Function.update s.queue_destination (idx s.queue_end) ((r.2 : Nat) * 4),
          queue_end := (s.queue_end + 1) % MAX_TRAVELLERS,
          queue_num := s.queue_num + 1 }, true)
    else (s, false)

/-- The `if (!queue_move && queue_num > 0)` block of the main loop: copy the
head trip into `current_origin`/`current_destination`, aim at the origin and
enter stage 0 (pick-up).  The head is not removed here. -/
def select_next_trip (s : EmuState) : EmuState :=
  if s.queue_move = false ∧ 0 < s.queue_num then
    { s with
        current_origin := s.queue_origin (idx s.queue_start),
        current_destination := s.queue_destination (idx s.queue_start),
        destination := s.queue_origin (idx s.queue_start),
        queue_move := true,
        queue_stage := 0 }
  else s

/-- The head removal performed inside the arrival branch:
`queue_start = (queue_start + 1) % MAX_TRAVELLERS; queue_num--;`. -/
def remove_queue_head (s : EmuState) : EmuState :=
  { s with queue_start := (s.queue_start + 1) % MAX_TRAVELLERS,
           queue_num := s.queue_num - 1 }

/-- The `if (!door_active && queue_move && current_position == destination)`
block: play the arrival tone, start the door animation, and either (stage 0)
remove the head trip and retarget to the destination, or (stage 1) finish the
trip.  `create_door_animation` only touches the door fields, so the stage
test and the retarget read the same values on `s` as in the source order. -/
def arrival_step (now : Nat) (s : EmuState) : EmuState :=
  if s.door_active = false ∧ s.queue_move = true ∧ s.current_position = s.destination then
    if s.queue_stage = 0 then
      { remove_queue_head (create_door_animation now s) with
          destination := s.current_destination,
          queue_stage := 1 }
    else
      { create_door_animation now s with queue_move := false }
  else s

/-- The timed movement inside `if (!door_active)`: when
`get_current_time() - time_since_move > get_speed()`, step one fine unit
toward `destination`, run `update_floor_num`, and reset `time_since_move`. -/
def elevator_move (i : TickInput) (s : EmuState) : EmuState :=
  if i.speed < i.now - s.time_since_move then
    let s1 :=
      if s.current_position < s.destination then
        { s with current_position := s.current_position + 1 }
      else if s.destination < s.current_position then
        { s with current_position := s.current_position - 1 }
      else s
    { update_floor_num s1 with time_since_move := i.now }
  else s

/-- The whole `if (!door_active)` block: timed movement, then
`handle_inputs()` (the terminal update has no core-state effect). -/
def move_and_input_step (i : TickInput) (s : EmuState) : EmuState :=
  if s.door_active = false then (handle_inputs i.inp (elevator_move i s)).1 else s

/-- One iteration of the `while(true)` loop of `start_elevator_emulator`,
in the source order: door animation update, trip selection, arrival handling,
then movement and input handling (both guarded by `!door_active`). -/
def tick (i : TickInput) (s : EmuState) : EmuState :=
  move_and_input_step i (arrival_step i.now (select_next_trip (update_door_animation i.now s)))

/-- The state at the top of the first loop iteration: C zero-initialised
globals, `current_position = destination = FLOOR_0`, and
`time_since_move = get_current_time()` (= `t0`). -/
def initState (t0 : Nat) : EmuState :=
  { current_position := 0
    destination := 0
    queue_origin := fun _ => 0
    queue_destination := fun _ => 0
    current_origin := 0
    current_destination := 0
    queue_start := 0
    queue_end := 0
    queue_num := 0
    queue_move := false
    queue_stage := 0
    traveller_moving := false
    floors_with_traveller := 0
    floors_without_traveller := 0
    previous_floor := 0
    door_active := false
    door_start_time := 0
    time_since_move := t0 }

/-- Run a sequence of loop iterations. -/
def run (s : EmuState) (inputs : List TickInput) : EmuState :=
  inputs.foldl (fun t i => tick i t) s

/-- Ring-buffer well-formedness: indices in range, count bounded by the
capacity, and tail index determined by head index and count. -/
def Wf (s : EmuState) : Prop :=
  s.queue_start < MAX_TRAVELLERS ∧ s.queue_end < MAX_TRAVELLERS ∧
    s.queue_num ≤ MAX_TRAVELLERS ∧
    s.queue_end = (s.queue_start + s.queue_num) % MAX_TRAVELLERS

/-- Full reachable-state invariant: well-formedness plus "a pick-up stage in
progress has its trip still in the queue" (which guards the `queue_num--`). -/
def Inv (s : EmuState) : Prop :=
  Wf s ∧ (s.queue_move = true → s.queue_stage = 0 → 1 ≤ s.queue_num)

/-- Abstract view of the ring buffer: the queued trips (origin, destination)
from head to tail. -/
def queueList (s : EmuState) : List (Nat × Nat) :=
  (List.range s.queue_num).map fun k =>
    (s.queue_origin (idx (s.queue_start + k)), s.queue_destination (idx (s.queue_start + k)))

/-- The trip enqueued for a request `(pressed, sw)`, in fine units. -/
def toReqTrip (r : Fin 4 × Fin 4) : Nat × Nat :=
  ((r.1 : Nat) * 4, (r.2 : Nat) * 4)

/-- Fold a list of resolved requests through `handle_inputs`. -/
def enqueue_all (s : EmuState) (reqs : List (Fin 4 × Fin 4)) : EmuState :=
  reqs.foldl (fun t r => (handle_inputs (some r) t).1) s

/- ### Small step lemmas about the loop components -/

theorem update_door_inactive (now : Nat) (s : EmuState) (h : s.door_active = false) :
    update_door_animation now s = s := by
  unfold update_door_animation
  rw [if_pos h]

theorem update_door_of_lt (now : Nat) (s : EmuState)
    (h : now - s.door_start_time < 1200) : update_door_animation now s = s := by
  unfold update_door_animation
  split_ifs <;> rfl

theorem update_door_cases (now : Nat) (s : EmuState) :
    update_door_animation now s = s ∨
      update_door_animation now s = { s with door_active := false } := by
  unfold update_door_animation
  split_ifs <;> simp

theorem select_of_not (s : EmuState) (h : ¬ (s.queue_move = false ∧ 0 < s.queue_num)) :
    select_next_trip s = s := by
  unfold select_next_trip
  rw [if_neg h]

theorem select_of (s : EmuState) (hm : s.queue_move = false) (hn : 0 < s.queue_num) :
    select_next_trip s =
      { s with
          current_origin := s.queue_origin (idx s.queue_start),
          current_destination := s.queue_destination (idx s.queue_start),
          destination := s.queue_origin (idx s.queue_start),
          queue_move := true,
          queue_stage := 0 } := by
  unfold select_next_trip
  rw [if_pos ⟨hm, hn⟩]

theorem arrival_of_not (now : Nat) (s : EmuState)
    (h : ¬ (s.door_active = false ∧ s.queue_move = true ∧
            s.current_position = s.destination)) :
    arrival_step now s = s := by
  unfold arrival_step
  rw [if_neg h]

theorem arrival_of_door_true (now : Nat) (s : EmuState) (h : s.door_active = true) :
    arrival_step now s = s := by
  apply arrival_of_not
  intro hc
  rw [h] at hc
  exact absurd hc.1 (by simp)

theorem arrival_stage0 (now : Nat) (s : EmuState) (hd : s.door_active = false)
    (hm : s.queue_move = true) (hp : s.current_position = s.destination)
    (hst : s.queue_stage = 0) :
    arrival_step now s =
      { s with
          door_active := true,
          door_start_time := now,
          queue_start := (s.queue_start + 1) % MAX_TRAVELLERS,
          queue_num := s.queue_num - 1,
          destination := s.current_destination,
          queue_stage := 1 } := by
  unfold arrival_step create_door_animation remove_queue_head
  rw [if_pos ⟨hd, hm, hp⟩, if_pos hst]

theorem arrival_stage_other (now : Nat) (s : EmuState) (hd : s.door_active = false)
    (hm : s.queue_move = true) (hp : s.current_position = s.destination)
    (hst : s.queue_stage ≠ 0) :
    arrival_step now s =
      { s with
          door_active := true,
          door_start_time := now,
          queue_move := false } := by
  unfold arrival_step create_door_animation
  rw [if_pos ⟨hd, hm, hp⟩, if_neg hst]

theorem mii_of_door_true (i : TickInput) (s : EmuState) (h : s.door_active = true) :
    move_and_input_step i s = s := by
  unfold move_and_input_step
  rw [if_neg (by rw [h]; simp)]

theorem mii_of_door_false_none (i : TickInput) (s : EmuState)
    (hd : s.door_active = false) (hin : i.inp = none) :
    move_and_input_step i s = elevator_move i s := by
  unfold move_and_input_step
  rw [if_pos hd, hin]
  rfl

@[simp] theorem update_floor_num_queue_num (s : EmuState) :
    (update_floor_num s).queue_num = s.queue_num := by
  unfold update_floor_num; split_ifs <;> rfl

@[simp] theorem update_floor_num_queue_start (s : EmuState) :
    (update_floor_num s).queue_start = s.queue_start := by
  unfold update_floor_num; split_ifs <;> rfl

@[simp] theorem update_floor_num_queue_end (s : EmuState) :
    (update_floor_num s).queue_end = s.queue_end := by
  unfold update_floor_num; split_ifs <;> rfl

@[simp] theorem update_floor_num_queue_move (s : EmuState) :
    (update_floor_num s).queue_move = s.queue_move := by
  unfold update_floor_num; split_ifs <;> rfl

@[simp] theorem update_floor_num_queue_stage (s : EmuState) :
    (update_floor_num s).queue_stage = s.queue_stage := by
  unfold update_floor_num; split_ifs <;> rfl

@[simp] theorem update_floor_num_door_active (s : EmuState) :
    (update_floor_num s).door_active = s.door_active := by
  unfold update_floor_num; split_ifs <;> rfl

@[simp] theorem update_floor_num_current_origin (s : EmuState) :
    (update_floor_num s).current_origin = s.current_origin := by
  unfold update_floor_num; split_ifs <;> rfl

@[simp] theorem update_floor_num_current_destination (s : EmuState) :
    (update_floor_num s).current_destination = s.current_destination := by
  unfold update_floor_num; split_ifs <;> rfl

@[simp] theorem update_floor_num_destination (s : EmuState) :
    (update_floor_num s).destination = s.destination := by
  unfold update_floor_num; split_ifs <;> rfl

@[simp] theorem update_floor_num_queue_origin (s : EmuState) :
    (update_floor_num s).queue_origin = s.queue_origin := by
  unfold update_floor_num; split_ifs <;> rfl

@[simp] theorem update_floor_num_queue_destination (s : EmuState) :
    (update_floor_num s).queue_destination = s.queue_destination := by
  unfold update_floor_num; split_ifs <;> rfl

@[simp] theorem update_floor_num_traveller_moving (s : EmuState) :
    (update_floor_num s).traveller_moving = s.traveller_moving := by
  unfold update_floor_num; split_ifs <;> rfl

@[simp] theorem update_floor_num_current_position (s : EmuState) :
    (update_floor_num s).current_position = s.current_position := by
  unfold update_floor_num; split_ifs <;> rfl

theorem elevator_move_queue (i : TickInput) (s : EmuState) :
    (elevator_move i s).queue_num = s.queue_num ∧
    (elevator_move i s).queue_start = s.queue_start ∧
    (elevator_move i s).queue_end = s.queue_end ∧
    (elevator_move i s).queue_move = s.queue_move ∧
    (elevator_move i s).queue_stage = s.queue_stage ∧
    (elevator_move i s).door_active = s.door_active ∧
    (elevator_move i s).current_origin = s.current_origin ∧
    (elevator_move i s).current_destination = s.current_destination ∧
    (elevator_move i s).destination = s.destination ∧
    (elevator_move i s).queue_origin = s.queue_origin ∧
    (elevator_move i s).queue_destination = s.queue_destination ∧
    (elevator_move i s).traveller_moving = s.traveller_moving := by
  unfold elevator_move
  split_ifs <;> simp

theorem handle_inputs_core (inp : Option (Fin 4 × Fin 4)) (s : EmuState) :
    (handle_inputs inp s).1.queue_move = s.queue_move ∧
    (handle_inputs inp s).1.queue_stage = s.queue_stage ∧
    (handle_inputs inp s).1.door_active = s.door_active ∧
    (handle_inputs inp s).1.current_position = s.current_position ∧
    (handle_inputs inp s).1.destination = s.destination ∧
    (handle_inputs inp s).1.queue_start = s.queue_start ∧
    (handle_inputs inp s).1.current_origin = s.current_origin ∧
    (handle_inputs inp s).1.current_destination = s.current_destination ∧
    (handle_inputs inp s).1.traveller_moving = s.traveller_moving := by
  cases inp with
  | none => simp [handle_inputs]
  | some r =>
    by_cases h1 : (r.1 : Nat) * 4 = (r.2 : Nat) * 4
    · simp [handle_inputs, h1]
    · by_cases h2 : s.queue_num < MAX_TRAVELLERS
      · simp [handle_inputs, h1, h2]
      · simp [handle_inputs, h1, h2]

/- ### C4: the door-phase thresholds -/

/-- Claim C4: for a door sequence started at arrival time `t0`, the phase as a
function of the current time `t` is OPENING on `[t0, t0+400)`, OPEN on
`[t0+400, t0+800)`, CLOSING on `[t0+800, t0+1200)`, and inactive (CLOSED) at
or after `t0+1200`, with no other phases; `update_door_animation` deactivates
the door exactly when the phase is CLOSED. -/
theorem door_phase_windows (t0 t : Nat) (h : t0 ≤ t) :
    (doorPhase (t - t0) = DoorPhase.opening ↔ t < t0 + 400) ∧
    (doorPhase (t - t0) = DoorPhase.fullyOpen ↔ t0 + 400 ≤ t ∧ t < t0 + 800) ∧
    (doorPhase (t - t0) = DoorPhase.closing ↔ t0 + 800 ≤ t ∧ t < t0 + 1200) ∧
    (doorPhase (t - t0) = DoorPhase.closed ↔ t0 + 1200 ≤ t) ∧
    (∀ s : EmuState, s.door_active = true → s.door_start_time = t0 →
      ((update_door_animation t s).door_active = false ↔
        doorPhase (t - t0) = DoorPhase.closed)) := by
  refine ⟨?_, ?_, ?_, ?_, ?_⟩
  · unfold doorPhase; split_ifs <;> simp <;> omega
  · unfold doorPhase; split_ifs <;> simp <;> omega
  · unfold doorPhase; split_ifs <;> simp <;> omega
  · unfold doorPhase; split_ifs <;> simp <;> omega
  · intro s hs ht
    unfold update_door_animation doorPhase
    rw [ht]
    split_ifs <;> simp_all

/-- Witness for C4: at `t0 = 1000`, time `1500` lies in the OPEN window. -/
theorem door_phase_windows_witness :
    doorPhase (1500 - 1000) = DoorPhase.fullyOpen ↔ 1000 + 400 ≤ 1500 ∧ 1500 < 1000 + 800 :=
  (door_phase_windows 1000 1500 (by decide)).2.1

/- ### C5: movement is suspended while the door sequence is active -/

/-- Claim C5: in any state whose door sequence is active (door flag set and
phase not yet CLOSED at the current time), one loop iteration leaves the
elevator position unchanged. -/
theorem door_active_position_unchanged (s : EmuState) (i : TickInput)
    (hd : s.door_active = true)
    (hph : doorPhase (i.now - s.door_start_time) ≠ DoorPhase.closed) :
    (tick i s).current_position = s.current_position := by
  have he : i.now - s.door_start_time < 1200 := by
    revert hph
    unfold doorPhase
    split_ifs <;> intro hph <;> first | omega | exact absurd rfl hph
  have h0 : update_door_animation i.now s = s := update_door_of_lt _ _ he
  have h1 : (select_next_trip s).door_active = true := by
    unfold select_next_trip
    split_ifs <;> simpa using hd
  unfold tick
  rw [h0, arrival_of_door_true _ _ h1, mii_of_door_true _ _ h1]
  unfold select_next_trip
  split_ifs <;> rfl

/-- Witness for C5: a reachable state with the door animation running (arrival
at the pick-up floor) does not move on the next iteration. -/
theorem door_active_position_unchanged_witness :
    (tick ⟨400, 100, none⟩
        (run (initState 0) [⟨100, 100, some ((0 : Fin 4), (2 : Fin 4))⟩,
          ⟨300, 100, none⟩])).current_position =
      (run (initState 0) [⟨100, 100, some ((0 : Fin 4), (2 : Fin 4))⟩,
          ⟨300, 100, none⟩]).current_position :=
  door_active_position_unchanged _ _ (by decide) (by decide)

/- ### C7: requests with origin equal to destination are rejected -/

/-- Claim C7: a request whose pick-up floor equals the selector-derived
destination floor is a silent no-op: the state is unchanged and no
acknowledgment tone is played. -/
theorem reject_equal_origin_destination (s : EmuState) (p d : Fin 4)
    (h : (p : Nat) * 4 = (d : Nat) * 4) :
    handle_inputs (some (p, d)) s = (s, false) := by
  simp [handle_inputs, h]

/-- Witness for C7: the request (floor 2, switch 2) is dropped. -/
theorem reject_equal_origin_destination_witness :
    handle_inputs (some ((2 : Fin 4), (2 : Fin 4))) (initState 5) = (initState 5, false) :=
  reject_equal_origin_destination (initState 5) 2 2 (by decide)

/- ### C8: a full queue silently drops requests; tone only on success -/

/-- Claim C8: when the queue already holds `MAX_TRAVELLERS` (10) trips,
`handle_inputs` is a silent no-op for every input (state unchanged, no tone),
and the acknowledgment tone is played only when a trip was actually appended
(queue count incremented). -/
theorem full_queue_silent_drop (s : EmuState) (inp : Option (Fin 4 × Fin 4)) :
    (s.queue_num = MAX_TRAVELLERS → handle_inputs inp s = (s, false)) ∧
    ((handle_inputs inp s).2 = true →
      (handle_inputs inp s).1.queue_num = s.queue_num + 1) := by
  cases inp with
  | none => simp [handle_inputs]
  | some r =>
    by_cases h1 : (r.1 : Nat) * 4 = (r.2 : Nat) * 4
    · simp [handle_inputs, h1]
    · by_cases h2 : s.queue_num < MAX_TRAVELLERS
      · constructor
        · intro hfull
          exact absurd (hfull ▸ h2) (by simp [MAX_TRAVELLERS])
        · intro _
          simp [handle_inputs, h1, h2]
      · simp [handle_inputs, h1, h2]

/-- Witness for C8: with ten queued trips, the request (floor 1, switch 3) is
dropped without a tone. -/
theorem full_queue_silent_drop_witness :
    handle_inputs (some ((1 : Fin 4), (3 : Fin 4)))
        (enqueue_all (initState 0)
          [(0, 1), (0, 1), (0, 1), (0, 1), (0, 1), (0, 1), (0, 1), (0, 1), (0, 1), (0, 1)]) =
      (enqueue_all (initState 0)
          [(0, 1), (0, 1), (0, 1), (0, 1), (0, 1), (0, 1), (0, 1), (0, 1), (0, 1), (0, 1)],
        false) :=
  (full_queue_silent_drop _ _).1 (by decide)

/- ### C2: input handling is gated by the door animation -/

/-- Claim C2 counterexample: after enqueuing a trip from floor 0 and arriving
at its origin (door animation started at t=300), a valid request (floor 1,
switch 3) arriving at t=400 — while the door phase is OPENING — is NOT
enqueued that tick: the queue count stays 0. -/
theorem input_during_door_ignored_cx :
    (run (initState 0) [⟨100, 100, some ((0 : Fin 4), (2 : Fin 4))⟩,
        ⟨300, 100, none⟩]).door_active = true ∧
    doorPhase (400 -
        (run (initState 0) [⟨100, 100, some ((0 : Fin 4), (2 : Fin 4))⟩,
          ⟨300, 100, none⟩]).door_start_time) = DoorPhase.opening ∧
    (run (initState 0) [⟨100, 100, some ((0 : Fin 4), (2 : Fin 4))⟩,
        ⟨300, 100, none⟩]).queue_num = 0 ∧
    (tick ⟨400, 100, some ((1 : Fin 4), (3 : Fin 4))⟩
        (run (initState 0) [⟨100, 100, some ((0 : Fin 4), (2 : Fin 4))⟩,
          ⟨300, 100, none⟩])).queue_num = 0 := by
  decide

/-- Claim C2 amended: a new trip request is accepted only on ticks where the
door sequence is inactive at the input-handling point (the call to
`handle_inputs` sits inside the `!door_active` guard): while the door
animation is running the request leaves the queue untouched that tick, and
when the door is inactive after the door/selection/arrival steps, a valid
request is enqueued that tick. -/
theorem input_accepted_only_when_door_inactive (s : EmuState) (i : TickInput) (p d : Fin 4)
    (hin : i.inp = some (p, d)) (hpd : (p : Nat) * 4 ≠ (d : Nat) * 4) :
    (s.door_active = true → i.now - s.door_start_time < 1200 →
      (tick i s).queue_num = s.queue_num ∧ (tick i s).queue_end = s.queue_end) ∧
    (∀ s2, s2 = arrival_step i.now (select_next_trip (update_door_animation i.now s)) →
      s2.door_active = false → s2.queue_num < MAX_TRAVELLERS →
      (tick i s).queue_num = s2.queue_num + 1) := by
  constructor
  · intro hd he
    have h0 : update_door_animation i.now s = s := update_door_of_lt _ _ he
    have h1 : (select_next_trip s).door_active = true := by
      unfold select_next_trip
      split_ifs <;> simpa using hd
    have hqn : (select_next_trip s).queue_num = s.queue_num := by
      unfold select_next_trip
      split_ifs <;> rfl
    have hqe : (select_next_trip s).queue_end = s.queue_end := by
      unfold select_next_trip
      split_ifs <;> rfl
    unfold tick
    rw [h0, arrival_of_door_true _ _ h1, mii_of_door_true _ _ h1]
    exact ⟨hqn, hqe⟩
  · intro s2 hs2 hd2 hn2
    unfold tick
    rw [← hs2]
    unfold move_and_input_step
    rw [if_pos hd2, hin]
    have hnum : (elevator_move i s2).queue_num = s2.queue_num := (elevator_move_queue i s2).1
    simp [handle_inputs, hpd, hnum, hn2]

/-- Witness for C2 amended: from the initial state with a pending valid
request, the queue grows by one this tick. -/
theorem input_accepted_only_when_door_inactive_witness :
    (tick ⟨100, 100, some ((0 : Fin 4), (2 : Fin 4))⟩ (initState 0)).queue_num =
      (arrival_step 100 (select_next_trip (update_door_animation 100 (initState 0)))).queue_num
        + 1 :=
  (input_accepted_only_when_door_inactive (initState 0)
      ⟨100, 100, some ((0 : Fin 4), (2 : Fin 4))⟩ 0 2 rfl (by decide)).2 _ rfl
    (by decide) (by decide)

/- ### C3: the head trip is removed at arrival, not at selection -/

/-- Claim C3 counterexample: idle at floor 0 with one queued trip from
floor 1, the tick that makes the elevator non-idle (`queue_move` flips to
true and the target becomes the origin of the trip) leaves the queue count at 1:
no dequeue happens at the idle-to-moving transition. -/
theorem idle_selection_no_dequeue_cx :
    (run (initState 0) [⟨100, 100, some ((1 : Fin 4), (2 : Fin 4))⟩]).queue_move = false ∧
    (run (initState 0) [⟨100, 100, some ((1 : Fin 4), (2 : Fin 4))⟩]).queue_num = 1 ∧
    (tick ⟨300, 100, none⟩
        (run (initState 0) [⟨100, 100, some ((1 : Fin 4), (2 : Fin 4))⟩])).queue_move = true ∧
    (tick ⟨300, 100, none⟩
        (run (initState 0) [⟨100, 100, some ((1 : Fin 4), (2 : Fin 4))⟩])).queue_num = 1 := by
  decide

/-- Claim C3 amended: while idle with a non-empty queue, the tick only copies
the head trip (`current_origin`/`current_destination`) and becomes non-idle
with the origin as target; the head is removed from the queue
(`queue_start` advanced, `queue_num` decremented) exactly when the elevator
is at the origin of the trip with the door inactive — immediately if it is already
there, otherwise later, on the arrival tick. -/
theorem head_removed_at_origin_arrival (s : EmuState) (i : TickInput)
    (hin : i.inp = none) (hm : s.queue_move = false) (hn : 0 < s.queue_num)
    (hd : s.door_active = false) :
    (tick i s).queue_move = true ∧
    (tick i s).current_origin = s.queue_origin (idx s.queue_start) ∧
    (tick i s).current_destination = s.queue_destination (idx s.queue_start) ∧
    (if s.current_position = s.queue_origin (idx s.queue_start) then
      (tick i s).queue_num = s.queue_num - 1 ∧
      (tick i s).queue_start = (s.queue_start + 1) % MAX_TRAVELLERS ∧
      (tick i s).queue_stage = 1
    else
      (tick i s).queue_num = s.queue_num ∧
      (tick i s).queue_start = s.queue_start ∧
      (tick i s).queue_stage = 0) := by
  have h0 : update_door_animation i.now s = s := update_door_inactive _ _ hd
  unfold tick
  rw [h0]
  set S1 := select_next_trip s with hS1
  have e1 : S1.door_active = false := by rw [hS1, select_of s hm hn]; exact hd
  have e2 : S1.queue_move = true := by rw [hS1, select_of s hm hn]
  have e3 : S1.current_position = s.current_position := by rw [hS1, select_of s hm hn]
  have e4 : S1.destination = s.queue_origin (idx s.queue_start) := by
    rw [hS1, select_of s hm hn]
  have e5 : S1.queue_stage = 0 := by rw [hS1, select_of s hm hn]
  have e6 : S1.current_origin = s.queue_origin (idx s.queue_start) := by
    rw [hS1, select_of s hm hn]
  have e7 : S1.current_destination = s.queue_destination (idx s.queue_start) := by
    rw [hS1, select_of s hm hn]
  have e8 : S1.queue_num = s.queue_num := by rw [hS1, select_of s hm hn]
  have e9 : S1.queue_start = s.queue_start := by rw [hS1, select_of s hm hn]
  by_cases hpos : s.current_position = s.queue_origin (idx s.queue_start)
  · have hp : S1.current_position = S1.destination := by rw [e3, e4, hpos]
    rw [arrival_stage0 i.now S1 e1 e2 hp e5]
    rw [mii_of_door_true _ _ rfl]
    rw [if_pos hpos]
    refine ⟨e2, e6, e7, ?_, ?_, rfl⟩
    · show S1.queue_num - 1 = s.queue_num - 1
      rw [e8]
    · show (S1.queue_start + 1) % MAX_TRAVELLERS = (s.queue_start + 1) % MAX_TRAVELLERS
      rw [e9]
  · have hnp : ¬ (S1.door_active = false ∧ S1.queue_move = true ∧
        S1.current_position = S1.destination) := by
      intro hc
      exact hpos (by rw [← e3, hc.2.2, e4])
    rw [arrival_of_not i.now S1 hnp]
    rw [mii_of_door_false_none i S1 e1 hin]
    rw [if_neg hpos]
    refine ⟨?_, ?_, ?_, ?_, ?_, ?_⟩
    · rw [(elevator_move_queue i S1).2.2.2.1, e2]
    · rw [(elevator_move_queue i S1).2.2.2.2.2.2.1, e6]
    · rw [(elevator_move_queue i S1).2.2.2.2.2.2.2.1, e7]
    · rw [(elevator_move_queue i S1).1, e8]
    · rw [(elevator_move_queue i S1).2.1, e9]
    · rw [(elevator_move_queue i S1).2.2.2.2.1, e5]

/-- Witness for C3 amended: idle at floor 0 with the queued trip
(floor 1 → floor 2), one tick selects the trip without dequeuing. -/
theorem head_removed_at_origin_arrival_witness :
    (tick ⟨300, 100, none⟩
        (run (initState 0) [⟨100, 100, some ((1 : Fin 4), (2 : Fin 4))⟩])).queue_move = true ∧
    (tick ⟨300, 100, none⟩
        (run (initState 0)
          [⟨100, 100, some ((1 : Fin 4), (2 : Fin 4))⟩])).current_origin =
      (run (initState 0) [⟨100, 100, some ((1 : Fin 4), (2 : Fin 4))⟩]).queue_origin
        (idx (run (initState 0) [⟨100, 100, some ((1 : Fin 4), (2 : Fin 4))⟩]).queue_start) :=
  ⟨(head_removed_at_origin_arrival _ _ rfl (by decide) (by decide) (by decide)).1,
    (head_removed_at_origin_arrival _ _ rfl (by decide) (by decide) (by decide)).2.1⟩

/- ### C9: idle with an empty queue, the elevator never moves -/

/-- States in which the elevator has nothing to do: at its target with an
empty queue and no trip in progress. -/
def Quiet (s : EmuState) : Prop :=
  s.current_position = 0 ∧ s.destination = 0 ∧ s.queue_num = 0 ∧ s.queue_move = false

theorem elevator_move_stationary (i : TickInput) (s : EmuState)
    (h : s.destination = s.current_position) :
    (elevator_move i s).current_position = s.current_position := by
  unfold elevator_move
  split_ifs <;> simp_all

theorem quiet_body (i : TickInput) (s : EmuState) (hi : i.inp = none) (h : Quiet s) :
    Quiet (move_and_input_step i (arrival_step i.now (select_next_trip s))) := by
  obtain ⟨h1, h2, h3, h4⟩ := h
  rw [select_of_not _ (fun hc => by
    have hx := hc.2
    rw [h3] at hx
    exact absurd hx (by simp))]
  rw [arrival_of_not _ _ (fun hc => by
    have hx := hc.2.1
    rw [h4] at hx
    exact absurd hx (by simp))]
  unfold move_and_input_step
  split_ifs with hdoor
  · rw [hi]
    show Quiet (elevator_move _ _)
    refine ⟨?_, ?_, ?_, ?_⟩
    · rw [elevator_move_stationary _ _ (h2.trans h1.symm)]
      exact h1
    · rw [(elevator_move_queue _ _).2.2.2.2.2.2.2.2.1]
      exact h2
    · rw [(elevator_move_queue _ _).1]
      exact h3
    · rw [(elevator_move_queue _ _).2.2.2.1]
      exact h4
  · exact ⟨h1, h2, h3, h4⟩

theorem quiet_tick (i : TickInput) (s : EmuState) (hi : i.inp = none) (h : Quiet s) :
    Quiet (tick i s) := by
  obtain ⟨h1, h2, h3, h4⟩ := h
  unfold tick
  rcases update_door_cases i.now s with h0 | h0 <;> rw [h0]
  · exact quiet_body i s hi ⟨h1, h2, h3, h4⟩
  · exact quiet_body i _ hi ⟨h1, h2, h3, h4⟩

theorem quiet_run :
    ∀ (inputs : List TickInput), (∀ i ∈ inputs, i.inp = none) →
      ∀ s, Quiet s → Quiet (run s inputs) := by
  intro inputs
  induction inputs with
  | nil => intro _ s hs; exact hs
  | cons i rest ih =>
    intro h s hs
    show Quiet (run (tick i s) rest)
    exact ih (fun j hj => h j (List.mem_cons_of_mem _ hj)) _
      (quiet_tick i s (h i (List.mem_cons_self _ _)) hs)

/-- Claim C9: starting from the initial state (idle at floor 0, empty queue)
and receiving no requests, the elevator position never changes over any
number of ticks, for arbitrary clock readings and speed settings. -/
theorem idle_empty_queue_position_constant (t0 : Nat) (inputs : List TickInput)
    (h : ∀ i ∈ inputs, i.inp = none) :
    (run (initState t0) inputs).current_position = 0 :=
  (quiet_run inputs h (initState t0) ⟨rfl, rfl, rfl, rfl⟩).1

/-- Witness for C9: three quiet ticks at various clock/speed readings leave
the elevator at floor 0. -/
theorem idle_empty_queue_position_constant_witness :
    (run (initState 7) [⟨100, 100, none⟩, ⟨1000, 300, none⟩,
        ⟨5000, 100, none⟩]).current_position = 0 :=
  idle_empty_queue_position_constant 7 _ (by decide)

/- ### C1: floor-crossing statistics on the with-passenger leg (code bug) -/

/-- The function `tick` never changes `traveller_moving`: no live code path assigns it
(only the commented-out legacy single-traveller code did), so it keeps its
zero-initialised value `false` in every reachable state. -/
theorem tick_traveller_moving_const (i : TickInput) (s : EmuState) :
    (tick i s).traveller_moving = s.traveller_moving := by
  unfold tick
  have h4 : ∀ t : EmuState, (move_and_input_step i t).traveller_moving = t.traveller_moving := by
    intro t
    unfold move_and_input_step
    split_ifs
    · rw [(handle_inputs_core i.inp _).2.2.2.2.2.2.2.2,
        (elevator_move_queue i t).2.2.2.2.2.2.2.2.2.2.2]
    · rfl
  rw [h4]
  have h3 : ∀ (now : Nat) (t : EmuState),
      (arrival_step now t).traveller_moving = t.traveller_moving := by
    intro now t
    unfold arrival_step create_door_animation remove_queue_head
    split_ifs <;> rfl
  rw [h3]
  have h2 : ∀ t : EmuState, (select_next_trip t).traveller_moving = t.traveller_moving := by
    intro t
    unfold select_next_trip
    split_ifs <;> rfl
  rw [h2]
  rcases update_door_cases i.now s with h0 | h0 <;> rw [h0]

/-- Claim C1 (code bug): a reachable state in the MOVING_TO_DESTINATION stage
(`queue_move` with `queue_stage = 1` after picking up the passenger of the trip
floor 0 → floor 2) crosses the floor 0/1 boundary on the next tick, and the
code increments `floors_without_traveller` — not `floors_with_traveller` as
specified — because `update_floor_num` tests the never-set `traveller_moving`
flag instead of the active-trip stage. -/
theorem stats_destination_leg_miscounted :
    (run (initState 0) [⟨100, 100, some ((0 : Fin 4), (2 : Fin 4))⟩, ⟨300, 100, none⟩,
        ⟨1600, 100, none⟩, ⟨1800, 100, none⟩, ⟨2000, 100, none⟩]).queue_move = true ∧
    (run (initState 0) [⟨100, 100, some ((0 : Fin 4), (2 : Fin 4))⟩, ⟨300, 100, none⟩,
        ⟨1600, 100, none⟩, ⟨1800, 100, none⟩, ⟨2000, 100, none⟩]).queue_stage = 1 ∧
    (run (initState 0) [⟨100, 100, some ((0 : Fin 4), (2 : Fin 4))⟩, ⟨300, 100, none⟩,
        ⟨1600, 100, none⟩, ⟨1800, 100, none⟩, ⟨2000, 100, none⟩]).current_position = 3 ∧
    (run (initState 0) [⟨100, 100, some ((0 : Fin 4), (2 : Fin 4))⟩, ⟨300, 100, none⟩,
        ⟨1600, 100, none⟩, ⟨1800, 100, none⟩, ⟨2000, 100, none⟩]).floors_with_traveller = 0 ∧
    (run (initState 0) [⟨100, 100, some ((0 : Fin 4), (2 : Fin 4))⟩, ⟨300, 100, none⟩,
        ⟨1600, 100, none⟩, ⟨1800, 100, none⟩,
        ⟨2000, 100, none⟩]).floors_without_traveller = 0 ∧
    (tick ⟨2200, 100, none⟩
        (run (initState 0) [⟨100, 100, some ((0 : Fin 4), (2 : Fin 4))⟩, ⟨300, 100, none⟩,
          ⟨1600, 100, none⟩, ⟨1800, 100, none⟩,
          ⟨2000, 100, none⟩])).current_position = 4 ∧
    (tick ⟨2200, 100, none⟩
        (run (initState 0) [⟨100, 100, some ((0 : Fin 4), (2 : Fin 4))⟩, ⟨300, 100, none⟩,
          ⟨1600, 100, none⟩, ⟨1800, 100, none⟩,
          ⟨2000, 100, none⟩])).floors_with_traveller = 0 ∧
    (tick ⟨2200, 100, none⟩
        (run (initState 0) [⟨100, 100, some ((0 : Fin 4), (2 : Fin 4))⟩, ⟨300, 100, none⟩,
          ⟨1600, 100, none⟩, ⟨1800, 100, none⟩,
          ⟨2000, 100, none⟩])).floors_without_traveller = 1 := by
  decide

/- ### Queue lemmas: the ring buffer as a list -/

theorem handle_reject_eq (r : Fin 4 × Fin 4) (s : EmuState)
    (h : (r.1 : Nat) * 4 = (r.2 : Nat) * 4) : handle_inputs (some r) s = (s, false) := by
  simp [handle_inputs, h]

theorem handle_full_eq (r : Fin 4 × Fin 4) (s : EmuState)
    (h : ¬ s.queue_num < MAX_TRAVELLERS) : handle_inputs (some r) s = (s, false) := by
  by_cases h1 : (r.1 : Nat) * 4 = (r.2 : Nat) * 4
  · simp [handle_inputs, h1]
  · simp [handle_inputs, h1, h]

theorem handle_success_eq (r : Fin 4 × Fin 4) (s : EmuState)
    (h1 : (r.1 : Nat) * 4 ≠ (r.2 : Nat) * 4) (h2 : s.queue_num < MAX_TRAVELLERS) :
    handle_inputs (some r) s =
      ({ s with
          queue_origin := Function.update s.queue_origin (idx s.queue_end) ((r.1 : Nat) * 4),
          queue_destination :=
            Function.update s.queue_destination (idx s.queue_end) ((r.2 : Nat) * 4),
          queue_end := (s.queue_end + 1) % MAX_TRAVELLERS,
          queue_num := s.queue_num + 1 }, true) := by
  simp [handle_inputs, h1, h2]

/-- A successful enqueue appends the requested trip at the tail of the
abstract queue, keeps the ring buffer well-formed, and grows the count
by one. -/
theorem enq_snoc (s : EmuState) (r : Fin 4 × Fin 4) (hW : Wf s)
    (hn : s.queue_num < MAX_TRAVELLERS) (hpd : (r.1 : Nat) * 4 ≠ (r.2 : Nat) * 4) :
    queueList (handle_inputs (some r) s).1 = queueList s ++ [toReqTrip r] ∧
    Wf (handle_inputs (some r) s).1 ∧
    (handle_inputs (some r) s).1.queue_num = s.queue_num + 1 := by
  obtain ⟨h1, h2, h3, h4⟩ := hW
  rw [handle_success_eq r s hpd hn]
  refine ⟨?_, ⟨h1, Nat.mod_lt _ (by decide),
    show s.queue_num + 1 ≤ MAX_TRAVELLERS by omega, ?_⟩, rfl⟩
  · show (List.range (s.queue_num + 1)).map
        (fun k =>
          (Function.update s.queue_origin (idx s.queue_end) ((r.1 : Nat) * 4)
            (idx (s.queue_start + k)),
           Function.update s.queue_destination (idx s.queue_end) ((r.2 : Nat) * 4)
            (idx (s.queue_start + k)))) =
      queueList s ++ [toReqTrip r]
    rw [List.range_succ, List.map_append]
    congr 1
    · apply List.map_congr_left
      intro k hk
      have hk2 : k < s.queue_num := List.mem_range.mp hk
      have hne : idx (s.queue_start + k) ≠ idx s.queue_end := by
        apply Fin.ne_of_val_ne
        show (s.queue_start + k) % MAX_TRAVELLERS ≠ s.queue_end % MAX_TRAVELLERS
        rw [h4]
        unfold MAX_TRAVELLERS at *
        omega
      rw [Function.update_noteq hne, Function.update_noteq hne]
    · have hidx : idx (s.queue_start + s.queue_num) = idx s.queue_end := by
        apply Fin.ext
        show (s.queue_start + s.queue_num) % MAX_TRAVELLERS = s.queue_end % MAX_TRAVELLERS
        rw [h4]
        unfold MAX_TRAVELLERS
        omega
      rw [List.map_cons, hidx, Function.update_same, Function.update_same]
      rfl
  · show (s.queue_end + 1) % MAX_TRAVELLERS =
      (s.queue_start + (s.queue_num + 1)) % MAX_TRAVELLERS
    rw [h4]
    unfold MAX_TRAVELLERS
    omega

/-- The abstract queue is consumed at its head: reading the head slot gives
the first element of the list view, and the head removal of the arrival
branch drops exactly that element. -/
theorem dequeue_head_tail (s : EmuState) (hW : Wf s) (hn : 0 < s.queue_num) :
    (queueList s).head? =
      some (s.queue_origin (idx s.queue_start), s.queue_destination (idx s.queue_start)) ∧
    queueList (remove_queue_head s) = (queueList s).tail := by
  obtain ⟨h1, h2, h3, h4⟩ := hW
  obtain ⟨m, hm⟩ : ∃ m, s.queue_num = m + 1 := ⟨s.queue_num - 1, by omega⟩
  constructor
  · unfold queueList
    rw [hm, List.range_succ_eq_map, List.map_cons]
    rfl
  · unfold queueList remove_queue_head
    rw [hm]
    show (List.range (m + 1 - 1)).map
        (fun k =>
          (s.queue_origin (idx ((s.queue_start + 1) % MAX_TRAVELLERS + k)),
           s.queue_destination (idx ((s.queue_start + 1) % MAX_TRAVELLERS + k)))) =
      ((List.range (m + 1)).map
        (fun k =>
          (s.queue_origin (idx (s.queue_start + k)),
           s.queue_destination (idx (s.queue_start + k))))).tail
    rw [List.range_succ_eq_map, List.map_cons, List.tail_cons, List.map_map]
    apply List.map_congr_left
    intro k hk
    have hidx : idx ((s.queue_start + 1) % MAX_TRAVELLERS + k) =
        idx (s.queue_start + (k + 1)) := by
      apply Fin.ext
      show ((s.queue_start + 1) % MAX_TRAVELLERS + k) % MAX_TRAVELLERS =
        (s.queue_start + (k + 1)) % MAX_TRAVELLERS
      unfold MAX_TRAVELLERS
      omega
    show (s.queue_origin (idx ((s.queue_start + 1) % MAX_TRAVELLERS + k)),
        s.queue_destination (idx ((s.queue_start + 1) % MAX_TRAVELLERS + k))) =
      (s.queue_origin (idx (s.queue_start + Nat.succ k)),
        s.queue_destination (idx (s.queue_start + Nat.succ k)))
    rw [hidx]

/- ### C6: FIFO order -/

/-- Claim C6: enqueuing any sequence of valid requests while below capacity
appends them, in order, to the tail of the abstract queue view, and trips are
taken from the queue at its head — so trips are served in exactly the order
they were enqueued (FIFO, no reordering). -/
theorem queue_fifo_order :
    ∀ (reqs : List (Fin 4 × Fin 4)) (s : EmuState), Wf s →
      (∀ r ∈ reqs, (r.1 : Nat) * 4 ≠ (r.2 : Nat) * 4) →
      s.queue_num + reqs.length ≤ MAX_TRAVELLERS →
      (queueList (enqueue_all s reqs) = queueList s ++ reqs.map toReqTrip ∧
        (0 < s.queue_num →
          (queueList s).head? =
            some (s.queue_origin (idx s.queue_start),
              s.queue_destination (idx s.queue_start)) ∧
          queueList (remove_queue_head s) = (queueList s).tail)) := by
  intro reqs
  induction reqs with
  | nil =>
    intro s hW _ _
    exact ⟨by simp [enqueue_all], fun hn => dequeue_head_tail s hW hn⟩
  | cons r rest ih =>
    intro s hW hv hcap
    have hr : (r.1 : Nat) * 4 ≠ (r.2 : Nat) * 4 := hv r (List.mem_cons_self _ _)
    have hn : s.queue_num < MAX_TRAVELLERS := by
      have hlen : (r :: rest).length = rest.length + 1 := rfl
      omega
    obtain ⟨hq, hwf, hnum⟩ := enq_snoc s r hW hn hr
    have hstep : enqueue_all s (r :: rest) = enqueue_all (handle_inputs (some r) s).1 rest :=
      rfl
    constructor
    · rw [hstep,
        (ih _ hwf (fun x hx => hv x (List.mem_cons_of_mem _ hx)) (by
          rw [hnum]
          have hlen : (r :: rest).length = rest.length + 1 := rfl
          omega)).1,
        hq, List.map_cons, List.append_assoc]
      rfl
    · intro hpos
      exact dequeue_head_tail s hW hpos

/-- Witness for C6: three requests enqueued into the empty initial queue
appear in the list view in arrival order. -/
theorem queue_fifo_order_witness :
    queueList (enqueue_all (initState 0)
        [((0 : Fin 4), (2 : Fin 4)), ((1 : Fin 4), (3 : Fin 4)), ((3 : Fin 4), (0 : Fin 4))]) =
      queueList (initState 0) ++
        [((0 : Fin 4), (2 : Fin 4)), ((1 : Fin 4), (3 : Fin 4)),
          ((3 : Fin 4), (0 : Fin 4))].map toReqTrip :=
  (queue_fifo_order
      [((0 : Fin 4), (2 : Fin 4)), ((1 : Fin 4), (3 : Fin 4)), ((3 : Fin 4), (0 : Fin 4))]
      (initState 0) (by unfold Wf; decide) (by decide) (by decide)).1

/- ### C10: the ring-buffer invariant is maintained -/

theorem wf_remove (s : EmuState) (hW : Wf s) (hn : 1 ≤ s.queue_num) :
    Wf (remove_queue_head s) := by
  obtain ⟨h1, h2, h3, h4⟩ := hW
  refine ⟨Nat.mod_lt _ (by decide), h2,
    show s.queue_num - 1 ≤ MAX_TRAVELLERS by omega, ?_⟩
  show s.queue_end = ((s.queue_start + 1) % MAX_TRAVELLERS + (s.queue_num - 1)) % MAX_TRAVELLERS
  rw [h4]
  unfold MAX_TRAVELLERS at *
  omega

theorem inv_update_door (now : Nat) (s : EmuState) (h : Inv s) :
    Inv (update_door_animation now s) := by
  rcases update_door_cases now s with h0 | h0 <;> rw [h0]
  · exact h
  · exact h

theorem inv_select (s : EmuState) (h : Inv s) : Inv (select_next_trip s) := by
  unfold select_next_trip
  split_ifs with hc
  · exact ⟨h.1, fun _ _ => hc.2⟩
  · exact h

theorem inv_arrival (now : Nat) (s : EmuState) (h : Inv s) : Inv (arrival_step now s) := by
  unfold arrival_step
  split_ifs with hc hst
  · have hnum : 1 ≤ s.queue_num := h.2 hc.2.1 hst
    refine ⟨wf_remove s h.1 hnum, ?_⟩
    intro _ hst1
    exact absurd hst1 (show ¬ (1 : Nat) = 0 by decide)
  · exact ⟨h.1, fun hmv => absurd hmv (show ¬ false = true by decide)⟩
  · exact h

theorem inv_move (i : TickInput) (s : EmuState) (h : Inv s) : Inv (elevator_move i s) := by
  obtain ⟨⟨h1, h2, h3, h4⟩, h5⟩ := h
  obtain ⟨e1, e2, e3, e4, e5, _⟩ := elevator_move_queue i s
  refine ⟨⟨?_, ?_, ?_, ?_⟩, ?_⟩
  · rw [e2]; exact h1
  · rw [e3]; exact h2
  · rw [e1]; exact h3
  · rw [e3, e2, e1]; exact h4
  · rw [e4, e5, e1]; exact h5

theorem inv_handle (inp : Option (Fin 4 × Fin 4)) (s : EmuState) (h : Inv s) :
    Inv (handle_inputs inp s).1 := by
  cases inp with
  | none => exact h
  | some r =>
    by_cases h1 : (r.1 : Nat) * 4 = (r.2 : Nat) * 4
    · rw [handle_reject_eq r s h1]
      exact h
    · by_cases h2 : s.queue_num < MAX_TRAVELLERS
      · obtain ⟨hW, hside⟩ := h
        obtain ⟨_, hwf, hnum⟩ := enq_snoc s r hW h2 h1
        refine ⟨hwf, ?_⟩
        intro hmv hst
        rw [hnum]
        have hc := handle_inputs_core (some r) s
        rw [hc.1] at hmv
        rw [hc.2.1] at hst
        have := hside hmv hst
        omega
      · rw [handle_full_eq r s h2]
        exact h

theorem inv_tick (i : TickInput) (s : EmuState) (h : Inv s) : Inv (tick i s) := by
  have hA : Inv (arrival_step i.now (select_next_trip (update_door_animation i.now s))) :=
    inv_arrival _ _ (inv_select _ (inv_update_door _ _ h))
  unfold tick move_and_input_step
  split_ifs
  · exact inv_handle _ _ (inv_move _ _ hA)
  · exact hA

theorem inv_run : ∀ (inputs : List TickInput) (s : EmuState), Inv s → Inv (run s inputs) := by
  intro inputs
  induction inputs with
  | nil => intro s hs; exact hs
  | cons i rest ih =>
    intro s hs
    exact ih _ (inv_tick i s hs)

/-- Claim C10: in every state reachable from the initial state,
`queue_num ≤ 10` and `queue_end = (queue_start + queue_num) % 10`; moreover
the well-formedness is preserved by `handle_inputs` below capacity and by the
head removal of the arrival-at-origin branch on a non-empty queue. -/
theorem ring_buffer_invariant (t0 : Nat) (inputs : List TickInput) :
    ((run (initState t0) inputs).queue_num ≤ MAX_TRAVELLERS ∧
      (run (initState t0) inputs).queue_end =
        ((run (initState t0) inputs).queue_start + (run (initState t0) inputs).queue_num) %
          MAX_TRAVELLERS) ∧
    (∀ (s : EmuState) (r : Fin 4 × Fin 4), Wf s → s.queue_num < MAX_TRAVELLERS →
      Wf (handle_inputs (some r) s).1) ∧
    (∀ s : EmuState, Wf s → 1 ≤ s.queue_num → Wf (remove_queue_head s)) := by
  have h0 : Inv (initState t0) :=
    ⟨⟨show (0 : Nat) < MAX_TRAVELLERS by decide, show (0 : Nat) < MAX_TRAVELLERS by decide,
      show (0 : Nat) ≤ MAX_TRAVELLERS by decide,
      show (0 : Nat) = (0 + 0) % MAX_TRAVELLERS by decide⟩,
      fun hmv _ => absurd hmv (show ¬ false = true by decide)⟩
  obtain ⟨⟨_, _, g3, g4⟩, _⟩ := inv_run inputs (initState t0) h0
  refine ⟨⟨g3, g4⟩, ?_, ?_⟩
  · intro s r hW hn
    by_cases h1 : (r.1 : Nat) * 4 = (r.2 : Nat) * 4
    · rw [handle_reject_eq r s h1]
      exact hW
    · exact (enq_snoc s r hW hn h1).2.1
  · intro s hW hn
    exact wf_remove s hW hn

/-- Witness for C10: enqueuing one trip into the initial queue and then
removing the head both preserve well-formedness. -/
theorem ring_buffer_invariant_witness :
    Wf (handle_inputs (some ((0 : Fin 4), (2 : Fin 4))) (initState 0)).1 ∧
    Wf (remove_queue_head (handle_inputs (some ((0 : Fin 4), (2 : Fin 4))) (initState 0)).1) :=
  ⟨(ring_buffer_invariant 0 []).2.1 _ _ (by unfold Wf; decide) (by decide),
    (ring_buffer_invariant 0 []).2.2 _ (by unfold Wf; decide) (by decide)⟩

end Elevator
